import Mathlib

/-!
Verification development for the go-ddd-template scheduling core:
the trainer Hour entity and its PostgreSQL repository (concurrency gate),
and the Training aggregate with its reschedule negotiation protocol and
PostgreSQL repository.

Timestamps are modelled as `Int`, counted in whole hours since an epoch
(the repository truncates every hour timestamp to an hour boundary, so a
timestamp is fully described by its hour index).  The hour-of-day of a
timestamp `t` is `t % 24` (UTC).

Database transactions are modelled explicitly: a transaction produces a
list of primitive write operations plus a commit flag; the physical
database applies the writes only when the transaction commits, so a
rollback (commit flag `false`) discards every write the transaction
performed, matching `tx.Rollback` semantics in the Go adapters.
-/

/-- Error kinds of the system, following the taxonomy of the error layer:
validation, domain-conflict, not-found, unique-constraint violation,
authorization, the named training errors of
`internal/trainings/domain/training/reschedule.go`, and infrastructure
failures.  Go wraps messages around these kinds; only the kind matters here. -/
inductive Err
  | validation
  | domainConflict
  | notFound
  | uniqueViolation
  | authorization
  | noRescheduleRequested
  | sameUserTypeApproval
  | cantRescheduleBeforeTime
  | alreadyCanceled
  | invalidAvailabilityString
  | infra
deriving DecidableEq

/-- Modelled from the spec §3/§4.1: the three availability states of an Hour
(the repository's `internal/trainer/domain/hour` package is not under src;
its data shape is fixed by the spec and by the strings the adapters use). -/
inductive Availability
  | available
  | notAvailable
  | trainingScheduled
deriving DecidableEq

/-- String form of an availability, as stored in the `trainer_hours` table;
the strings "available" and "training_scheduled" appear in
`hour_postgres_repository.go` (`AvailableHours`). -/
def availabilityToString : Availability → String
  | .available => "available"
  | .notAvailable => "not_available"
  | .trainingScheduled => "training_scheduled"

/-- Modelled from the spec: `hour.NewAvailabilityFromString`, the inverse of
`availabilityToString`; any other string is rejected (the adapter surfaces
"invalid availability in database"). -/
def availabilityFromString (s : String) : Except Err Availability :=
  if s = "available" then .ok .available
  else if s = "not_available" then .ok .notAvailable
  else if s = "training_scheduled" then .ok .trainingScheduled
  else .error .invalidAvailabilityString

/-- Factory configuration, fields as in `hour.FactoryConfig` (constructed in
the trainer service's `NewApplication`). -/
structure FactoryConfig where
  maxWeeksInTheFutureToSet : Int
  minUtcHour : Int
  maxUtcHour : Int
deriving DecidableEq

/-- The configuration the trainer service installs in `NewApplication`:
`MaxWeeksInTheFutureToSet: 6, MinUtcHour: 12, MaxUtcHour: 20`. -/
def appFactoryConfig : FactoryConfig :=
  { maxWeeksInTheFutureToSet := 6, minUtcHour := 12, maxUtcHour := 20 }

/-- The Hour entity: a timestamp (hour index) and its availability. -/
structure Hour where
  hourTime : Int
  availability : Availability
deriving DecidableEq

/-- Modelled from the spec §4.1: the factory's slot-creation validation —
fails with a ValidationError if the time is in the past, its UTC
hour-of-day lies outside the configured band, or it lies beyond the
configured max-weeks-in-the-future horizon.  `now` is the current hour. -/
def validateHourTime (cfg : FactoryConfig) (now t : Int) : Except Err Unit :=
  if t < now then .error .validation
  else if t % 24 < cfg.minUtcHour then .error .validation
  else if cfg.maxUtcHour < t % 24 then .error .validation
  else if now + cfg.maxWeeksInTheFutureToSet * 7 * 24 < t then .error .validation
  else .ok ()

/-- Modelled from the spec §4.1: `Factory.NewNotAvailableHour` — validate the
time, then construct a NotAvailable hour. -/
def NewNotAvailableHour (cfg : FactoryConfig) (now t : Int) : Except Err Hour :=
  match validateHourTime cfg now t with
  | .error e => .error e
  | .ok _ => .ok { hourTime := t, availability := .notAvailable }

/-- Modelled from the spec §4.1: `Factory.UnmarshalHourFromDatabase`
reconstructs an entity from persisted state without re-running creation
validation (trusted source), so it cannot fail. -/
def UnmarshalHourFromDatabase (t : Int) (av : Availability) : Hour :=
  { hourTime := t, availability := av }

/-- Modelled from the spec §4.1: `MakeAvailable` transitions
NotAvailable → Available; any other current state (including the
same-state self-loop) is a DomainConflict.  On error the Go method leaves
its receiver untouched, which the `Except` result encodes (the caller
keeps the old value). -/
def Hour.makeAvailable (h : Hour) : Except Err Hour :=
  if h.availability = .notAvailable then .ok { h with availability := .available }
  else .error .domainConflict

/-- Modelled from the spec §4.1: `MakeNotAvailable` transitions
Available → NotAvailable; everything else is a DomainConflict. -/
def Hour.makeNotAvailable (h : Hour) : Except Err Hour :=
  if h.availability = .available then .ok { h with availability := .notAvailable }
  else .error .domainConflict

/-- Modelled from the spec §4.1: `ScheduleTraining` transitions
Available → TrainingScheduled; fails if not currently Available. -/
def Hour.scheduleTraining (h : Hour) : Except Err Hour :=
  if h.availability = .available then .ok { h with availability := .trainingScheduled }
  else .error .domainConflict

/-- Modelled from the spec §4.1: `CancelTraining` transitions
TrainingScheduled → Available; fails if not currently TrainingScheduled. -/
def Hour.cancelTraining (h : Hour) : Except Err Hour :=
  if h.availability = .trainingScheduled then .ok { h with availability := .available }
  else .error .domainConflict

/-- The four labeled transitions of the Hour state machine (spec §4.1). -/
inductive HourTransition
  | makeAvailable
  | makeNotAvailable
  | scheduleTraining
  | cancelTraining
deriving DecidableEq

/-- Dispatch a labeled transition to the corresponding Hour method. -/
def applyHourTransition : HourTransition → Hour → Except Err Hour
  | .makeAvailable, h => h.makeAvailable
  | .makeNotAvailable, h => h.makeNotAvailable
  | .scheduleTraining, h => h.scheduleTraining
  | .cancelTraining, h => h.cancelTraining

/-- The update function the trainer `scheduleTrainingHandler.Handle` passes to
`UpdateHour`: call `h.ScheduleTraining()` and return the hour (errors are
wrapped into a slug error by the handler; the kind is unchanged). -/
def scheduleTrainingHandlerFn (h : Hour) : Except Err Hour :=
  h.scheduleTraining

/-- A row of the `trainer_hours` table (id, hour_time, availability). -/
structure HourRow where
  id : Nat
  hourTime : Int
  availability : String
deriving DecidableEq

/-- The hours table. -/
abbrev HoursDB := List HourRow

/-- The `GetHourByTime` query as written in the SQLC query file
(trainer-context section): `SELECT * FROM trainer_hours WHERE hour_time = $1;`
— it carries no locking clause. -/
structure SqlSelectByTime where
  table : String
  forUpdate : Bool
deriving DecidableEq

/-- The `GetHourByTime` query of the source's SQLC query file: a plain
SELECT, with no FOR UPDATE clause. -/
def getHourByTimeQuery : SqlSelectByTime :=
  { table := "trainer_hours", forUpdate := false }

/-- The `GetHourByTime` query as the repository's README documents it
(`SELECT * FROM trainer_hours WHERE hour_time = $1 FOR UPDATE;` with the
comment "Row-level locking for concurrency"). -/
def documentedGetHourByTimeQuery : SqlSelectByTime :=
  { table := "trainer_hours", forUpdate := true }

/-- Point lookup by the unique secondary key `hour_time`. -/
def getHourByTime (db : HoursDB) (t : Int) : Option HourRow :=
  db.find? (fun r => r.hourTime == t)

/-- Primitive write operations an hour transaction can perform. -/
inductive HourTxOp
  | insertRow (r : HourRow)
  | updateAvailability (id : Nat) (availability : String)
deriving DecidableEq

/-- Apply one primitive write to the hours table: `insertRow` appends
(`CreateHour`), `updateAvailability` sets the availability of the row with
the given id (`UpdateHourAvailability`: `UPDATE ... SET availability = $2
WHERE id = $1`). -/
def applyHourTxOp (db : HoursDB) : HourTxOp → HoursDB
  | .insertRow r => db ++ [r]
  | .updateAvailability i av =>
    db.map (fun r => if r.id == i then { r with availability := av } else r)

/-- Publish a transaction's writes in order. -/
def commitHourOps (db : HoursDB) (ops : List HourTxOp) : HoursDB :=
  ops.foldl applyHourTxOp db

/-- Outcome of one `UpdateHour` transaction: the value returned to the
caller, the writes the transaction performed, and whether it committed. -/
structure HourTxOutcome where
  result : Except Err Unit
  ops : List HourTxOp
  committed : Bool

/-- The persistent state after a transaction: its writes take effect only
if it committed; a rollback discards them all. -/
def hourTxFinalDB (db : HoursDB) (o : HourTxOutcome) : HoursDB :=
  if o.committed then commitHourOps db o.ops else db

/-- The read-or-create phase of `UpdateHour`
(`hour_postgres_repository.go` lines 94–116): read the row at `hourTime`
inside the transaction; if it is missing, build a new NotAvailable hour
through the factory (its creation validation runs here) and insert it,
honoring the unique constraint on `hour_time`; `freshId` stands for the
freshly generated UUID.  Returns the row the rest of the transaction
operates on, together with the insert performed (if any). -/
def hourTxRead (cfg : FactoryConfig) (now : Int) (freshId : Nat) (db : HoursDB)
    (hourTime : Int) : Except Err (HourRow × List HourTxOp) :=
  match getHourByTime db hourTime with
  | some r => .ok (r, [])
  | none =>
    match NewNotAvailableHour cfg now hourTime with
    | .error e => .error e
    | .ok newHour =>
      if db.any (fun r => r.hourTime == hourTime) then .error .uniqueViolation
      else
        let row : HourRow :=
          { id := freshId, hourTime := hourTime,
            availability := availabilityToString newHour.availability }
        .ok (row, [.insertRow row])

/-- The post-read remainder of the `UpdateHour` transaction body
(`hour_postgres_repository.go` lines 118–139): parse the row's
availability, rebuild the domain Hour (trusted unmarshal), run the
caller's update function, and on success emit the availability write for
the same row. -/
def hourTxAfterRead (dbHour : HourRow) (updateFn : Hour → Except Err Hour) :
    Except Err HourTxOp :=
  match availabilityFromString dbHour.availability with
  | .error e => .error e
  | .ok av =>
    match updateFn (UnmarshalHourFromDatabase dbHour.hourTime av) with
    | .error e => .error e
    | .ok updatedHour =>
      .ok (.updateAvailability dbHour.id (availabilityToString updatedHour.availability))

/-- `HourPostgresRepository.UpdateHour` (lines 78–147): begin a
transaction, read or lazily create the row at `hourTime`, run the update
function, write the new availability back, and commit; any failure rolls
the whole transaction back (commit flag `false`), which also discards a
row synthesized on the missing-row path. -/
def UpdateHour (cfg : FactoryConfig) (now : Int) (freshId : Nat) (db : HoursDB)
    (hourTime : Int) (updateFn : Hour → Except Err Hour) : HourTxOutcome :=
  match hourTxRead cfg now freshId db hourTime with
  | .error e => { result := .error e, ops := [], committed := false }
  | .ok (dbHour, ops) =>
    match hourTxAfterRead dbHour updateFn with
    | .error e => { result := .error e, ops := ops, committed := false }
    | .ok writeOp =>
      { result := .ok (), ops := ops ++ [writeOp], committed := true }

/-- Two `UpdateHour` transactions on the same timestamp, interleaved as:
tx₁ SELECTs, tx₂ SELECTs, tx₁ writes and commits, tx₂ writes and commits.
Because `getHourByTimeQuery.forUpdate = false`, tx₁'s read takes no row
lock, so nothing blocks tx₂'s read from proceeding before tx₁ commits:
both transactions observe the same committed pre-state.  Each transaction
then runs the unchanged post-read body (`hourTxAfterRead`) on the row it
read; `UPDATE ... WHERE id` blocks only until the other writer commits
and then applies regardless of the re-read value.  Returns both callers'
results and the final table.  `none` when no row exists at `t` (the
lazy-creation race is a different scenario). -/
def concurrentDoubleUpdateHour (db : HoursDB) (t : Int)
    (f g : Hour → Except Err Hour) :
    Option (Except Err Unit × Except Err Unit × HoursDB) :=
  match getHourByTime db t with
  | none => none
  | some r =>
    let step1 : Except Err Unit × HoursDB :=
      match hourTxAfterRead r f with
      | .error e => (.error e, db)
      | .ok op => (.ok (), applyHourTxOp db op)
    let step2 : Except Err Unit × HoursDB :=
      match hourTxAfterRead r g with
      | .error e => (.error e, step1.2)
      | .ok op => (.ok (), applyHourTxOp step1.2 op)
    some (step1.1, step2.1, step2.2)

/-- Modelled from the spec §3: the two user roles (`training.UserType` is a
value object; its Go zero value — "no role recorded" — is modelled as
`none` of `Option UserTypeV`, matching `UserType.IsZero`). -/
inductive UserTypeV
  | trainer
  | attendee
deriving DecidableEq

/-- String form of a role, as `UserType.String()` yields it and as the
`move_proposed_by` column stores it. -/
def userTypeString : UserTypeV → String
  | .trainer => "trainer"
  | .attendee => "attendee"

/-- Modelled from the spec: `training.NewUserTypeFromString`, rejecting
unknown strings. -/
def userTypeFromString (s : String) : Except Err UserTypeV :=
  if s = "trainer" then .ok .trainer
  else if s = "attendee" then .ok .attendee
  else .error .validation

/-- The Training aggregate.  The struct layout is modelled from the spec §3
(`training.go` is not under src; the mutators of `reschedule.go` are).
`proposedNewTime = none` models Go's zero `time.Time`
(`ProposedNewTime().IsZero()`), and `moveProposedBy = none` models the
zero `UserType`. -/
structure Training where
  uuid : String
  userUUID : String
  userName : String
  time : Int
  notes : String
  canceled : Bool
  proposedNewTime : Option Int
  moveProposedBy : Option UserTypeV
deriving DecidableEq

/-- `Training.IsRescheduleProposed` (`reschedule.go` line 45): both proposal
fields are non-zero. -/
def Training.isRescheduleProposed (t : Training) : Bool :=
  t.moveProposedBy.isSome && t.proposedNewTime.isSome

/-- Modelled from the spec §4.2: the free-cancellation window length in
hours — `CanBeCanceledForFree` is "a pure predicate over `time` minus
now"; the concrete width is not under src, only that the window sits
ahead of the training time. -/
def freeCancellationHours : Int := 24

/-- Modelled from the spec §4.2: `Training.CanBeCanceledForFree` — true
exactly when the training still lies at least the free-cancellation
window ahead of `now`. -/
def canBeCanceledForFree (now : Int) (t : Training) : Bool :=
  freeCancellationHours ≤ t.time - now

/-- `Training.RescheduleTraining` (`reschedule.go` lines 28–38): fails with
`CantRescheduleBeforeTimeError` when the free-cancellation window has
passed; otherwise sets the time.  The receiver is untouched on error. -/
def Training.rescheduleTraining (now newTime : Int) (t : Training) : Except Err Training :=
  if !canBeCanceledForFree now t then .error .cantRescheduleBeforeTime
  else .ok { t with time := newTime }

/-- `Training.ProposeReschedule` (`reschedule.go` lines 40–43):
unconditionally records the pending proposal (overwriting any prior one);
it returns no error.  Handlers pass a parsed, non-zero role. -/
def Training.proposeReschedule (newTime : Int) (proposerType : UserTypeV)
    (t : Training) : Training :=
  { t with moveProposedBy := some proposerType, proposedNewTime := some newTime }

/-- `Training.ApproveReschedule` (`reschedule.go` lines 53–68): fails with
`ErrNoRescheduleRequested` unless both proposal fields are set; fails with
`ErrSameUserTypeApproval` when the approver's role equals the proposer's;
otherwise commits `time = proposedNewTime` and clears both proposal
fields. -/
def Training.approveReschedule (userType : UserTypeV) (t : Training) : Except Err Training :=
  match t.proposedNewTime, t.moveProposedBy with
  | some pnt, some proposer =>
    if proposer = userType then .error .sameUserTypeApproval
    else .ok { t with time := pnt, proposedNewTime := none, moveProposedBy := none }
  | _, _ => .error .noRescheduleRequested

/-- `Training.RejectReschedule` (`reschedule.go` lines 70–79): fails with
`ErrNoRescheduleRequested` unless a proposal is pending; otherwise clears
both proposal fields, leaving the time unchanged. -/
def Training.rejectReschedule (t : Training) : Except Err Training :=
  match t.proposedNewTime, t.moveProposedBy with
  | some _, some _ => .ok { t with proposedNewTime := none, moveProposedBy := none }
  | _, _ => .error .noRescheduleRequested

/-- `Training.Cancel`, as the repository's README quotes it (the file
`training.go` is not under src): fails when already canceled, otherwise
sets `canceled = true`. -/
def Training.cancel (t : Training) : Except Err Training :=
  if t.canceled then .error .alreadyCanceled
  else .ok { t with canceled := true }

/-- Modelled from the spec §3: `Training.UpdateNotes` (not under src)
enforces the notes-length invariant (≤ 1000 characters) and stores the
new notes; it does not consult any other field. -/
def Training.updateNotes (notes : String) (t : Training) : Except Err Training :=
  if 1000 < notes.length then .error .validation
  else .ok { t with notes := notes }

/-- An authenticated caller: identity plus role (the opaque `(uuid, role)`
pair of the spec §6). -/
structure User where
  uuid : String
  role : UserTypeV
deriving DecidableEq

/-- Modelled from the spec §4.2: `training.CanUserSeeTraining` (not under
src) — a training is visible to any trainer-role user and to the attendee
who booked it; anyone else gets an Authorization error. -/
def CanUserSeeTraining (u : User) (t : Training) : Except Err Unit :=
  if u.role = .trainer then .ok ()
  else if u.uuid = t.userUUID then .ok ()
  else .error .authorization

/-- A row of the `trainings_trainings` table (the columns the repository
reads and writes; nullable columns are `Option`). -/
structure TrainingRow where
  id : String
  userId : String
  userName : String
  trainingTime : Int
  notes : Option String
  proposedNewTime : Option Int
  moveProposedBy : Option String
  canceled : Bool
deriving DecidableEq

/-- SQL `COALESCE(new, old)`: the new value when it is non-NULL, otherwise
the stored one. -/
def coalesce {α : Type} (newVal oldVal : Option α) : Option α :=
  match newVal with
  | some v => some v
  | none => oldVal

/-- The `UpdateTraining` statement of `sql/queries/trainings.sql`
(lines 24–32): `SET notes = COALESCE($2, notes), proposed_new_time =
COALESCE($3, proposed_new_time), move_proposed_by = COALESCE($4,
move_proposed_by), canceled = COALESCE($5, canceled) WHERE id = $1`.
The `canceled` parameter is a Go `bool`, hence never NULL, so its
COALESCE always takes the parameter.  `training_time` is not in the SET
list. -/
def sqlUpdateTraining (row : TrainingRow) (notes : Option String)
    (proposedNewTime : Option Int) (moveProposedBy : Option String)
    (canceled : Bool) : TrainingRow :=
  { row with
    notes := coalesce notes row.notes,
    proposedNewTime := coalesce proposedNewTime row.proposedNewTime,
    moveProposedBy := coalesce moveProposedBy row.moveProposedBy,
    canceled := canceled }

/-- The parameter marshalling of `UpdateTraining` in
`training_postgres_repository.go` (lines 141–156): empty notes become
NULL; a zero `proposedNewTime` becomes NULL (here: the `Option` itself);
a zero `moveProposedBy` becomes NULL, otherwise its string form. -/
def marshalNotes (s : String) : Option String :=
  if s = "" then none else some s

/-- Marshal the proposer role for the `move_proposed_by` column. -/
def marshalMoveProposedBy (m : Option UserTypeV) : Option String :=
  m.map userTypeString

/-- `unmarshalTraining` of `training_postgres_repository.go`
(lines 170–211): NULL notes become the empty string, the proposed time is
taken as stored (zero when NULL), and a non-NULL, non-empty
`move_proposed_by` is parsed (failing on unknown strings); the domain
unmarshal itself is a trusted source and cannot fail. -/
def unmarshalTraining (row : TrainingRow) : Except Err Training :=
  match row.moveProposedBy with
  | some s =>
    if s = "" then
      .ok { uuid := row.id, userUUID := row.userId, userName := row.userName,
            time := row.trainingTime, notes := row.notes.getD "",
            canceled := row.canceled, proposedNewTime := row.proposedNewTime,
            moveProposedBy := none }
    else
      match userTypeFromString s with
      | .error e => .error e
      | .ok ut =>
        .ok { uuid := row.id, userUUID := row.userId, userName := row.userName,
              time := row.trainingTime, notes := row.notes.getD "",
              canceled := row.canceled, proposedNewTime := row.proposedNewTime,
              moveProposedBy := some ut }
  | none =>
    .ok { uuid := row.id, userUUID := row.userId, userName := row.userName,
          time := row.trainingTime, notes := row.notes.getD "",
          canceled := row.canceled, proposedNewTime := row.proposedNewTime,
          moveProposedBy := none }

/-- `TrainingPostgresRepository.UpdateTraining` (lines 94–167): inside one
transaction, fetch the training by id (NotFound when absent), check
`CanUserSeeTraining` before invoking the update function, run the update
function, and persist via the COALESCE-based `UpdateTraining` statement;
any error aborts the transaction, so an error result means the stored
table is unchanged. -/
def UpdateTraining (db : List TrainingRow) (trainingUUID : String) (user : User)
    (updateFn : Training → Except Err Training) : Except Err (List TrainingRow) :=
  match db.find? (fun r => r.id == trainingUUID) with
  | none => .error .notFound
  | some row =>
    match unmarshalTraining row with
    | .error e => .error e
    | .ok tr =>
      match CanUserSeeTraining user tr with
      | .error e => .error e
      | .ok _ =>
        match updateFn tr with
        | .error e => .error e
        | .ok updatedTr =>
          .ok (db.map (fun r =>
            if r.id == trainingUUID then
              sqlUpdateTraining r (marshalNotes updatedTr.notes)
                updatedTr.proposedNewTime
                (marshalMoveProposedBy updatedTr.moveProposedBy)
                updatedTr.canceled
            else r))

/-- Observable steps of the reschedule command's update function, used to
record the order of its effects. -/
inductive RescheduleStep
  | notesUpdated
  | domainRescheduled
  | trainerServiceMoved
deriving DecidableEq

/-- The update function `rescheduleTrainingHandler.Handle` passes to
`UpdateTraining`: remember the original time, update the notes, apply the
domain `RescheduleTraining` transition, and only then call
`trainerService.MoveTraining(newTime, originalTrainingTime)`; any error
aborts.  `moveTraining` is the trainer-service boundary (an oracle which
may fail).  Alongside the result, the performed steps are recorded in
order. -/
def rescheduleHandlerUpdateFn (now newTime : Int) (newNotes : String)
    (moveTraining : Int → Int → Except Err Unit) (tr : Training) :
    Except Err Training × List RescheduleStep :=
  let originalTrainingTime := tr.time
  match Training.updateNotes newNotes tr with
  | .error e => (.error e, [])
  | .ok tr1 =>
    match Training.rescheduleTraining now newTime tr1 with
    | .error e => (.error e, [.notesUpdated])
    | .ok tr2 =>
      match moveTraining newTime originalTrainingTime with
      | .error e => (.error e, [.notesUpdated, .domainRescheduled])
      | .ok _ => (.ok tr2, [.notesUpdated, .domainRescheduled, .trainerServiceMoved])

/-- Claim C4: only the four listed transitions succeed (MakeAvailable:
NotAvailable→Available, MakeNotAvailable: Available→NotAvailable,
ScheduleTraining: Available→TrainingScheduled, CancelTraining:
TrainingScheduled→Available); every other (current state, transition)
pair — including every same-state self-loop — fails with a DomainConflict.
An error result leaves the entity unchanged (the Go methods mutate the
receiver only on the success path, which the `Except` encoding captures:
the caller keeps the pre-transition value). -/
theorem hour_transitions_match_listed_table (a : Availability) (t : Int)
    (op : HourTransition) :
    applyHourTransition op { hourTime := t, availability := a } =
      (match op, a with
       | .makeAvailable, .notAvailable =>
         .ok { hourTime := t, availability := .available }
       | .makeNotAvailable, .available =>
         .ok { hourTime := t, availability := .notAvailable }
       | .scheduleTraining, .available =>
         .ok { hourTime := t, availability := .trainingScheduled }
       | .cancelTraining, .trainingScheduled =>
         .ok { hourTime := t, availability := .available }
       | _, _ => .error .domainConflict) := by
  cases a <;> cases op <;> rfl

/-- Claim C6: `ApproveReschedule(approverType)` fails with
`ErrNoRescheduleRequested` when no proposal is pending; fails with
`ErrSameUserTypeApproval` when the approver's role equals the proposer's;
and when the roles differ it succeeds, sets `time = proposedNewTime`, and
clears both proposal fields. -/
theorem approveReschedule_role_rules (t : Training) (u : UserTypeV) :
    (t.isRescheduleProposed = false →
      Training.approveReschedule u t = .error .noRescheduleRequested)
  ∧ (∀ pnt proposer, t.proposedNewTime = some pnt → t.moveProposedBy = some proposer →
      (proposer = u →
        Training.approveReschedule u t = .error .sameUserTypeApproval)
      ∧ (proposer ≠ u →
        Training.approveReschedule u t =
          .ok { t with time := pnt, proposedNewTime := none, moveProposedBy := none })) := by
  rcases t with ⟨uu, uid, un, tm, nt, cc, pnt, mpb⟩
  refine ⟨?_, ?_⟩
  · intro h
    cases pnt <;> cases mpb
    · rfl
    · rfl
    · rfl
    · simp [Training.isRescheduleProposed] at h
  · intro pnt' proposer hp hm
    simp only at hp hm
    subst hp
    subst hm
    refine ⟨?_, ?_⟩
    · intro h
      simp [Training.approveReschedule, h]
    · intro h
      simp [Training.approveReschedule, h]

/-- Witness for `approveReschedule_role_rules`: a pending proposal by the
attendee at time 200 cannot be approved by the attendee, is approved by
the trainer (committing the time and clearing the proposal), and a
training without a proposal rejects approval outright. -/
theorem approveReschedule_role_rules_witness :
    Training.approveReschedule .attendee
        { uuid := "t", userUUID := "u", userName := "n", time := 100, notes := "",
          canceled := false, proposedNewTime := some 200, moveProposedBy := some .attendee } =
      .error .sameUserTypeApproval
  ∧ Training.approveReschedule .trainer
        { uuid := "t", userUUID := "u", userName := "n", time := 100, notes := "",
          canceled := false, proposedNewTime := some 200, moveProposedBy := some .attendee } =
      .ok { uuid := "t", userUUID := "u", userName := "n", time := 200, notes := "",
            canceled := false, proposedNewTime := none, moveProposedBy := none }
  ∧ Training.approveReschedule .trainer
        { uuid := "t", userUUID := "u", userName := "n", time := 100, notes := "",
          canceled := false, proposedNewTime := none, moveProposedBy := none } =
      .error .noRescheduleRequested :=
  ⟨((approveReschedule_role_rules _ .attendee).2 200 .attendee rfl rfl).1 rfl,
   ((approveReschedule_role_rules _ .trainer).2 200 .attendee rfl rfl).2 (by decide),
   (approveReschedule_role_rules _ .trainer).1 rfl⟩

/-- Claim C7, counterexample: a training with `canceled = true` is not
terminal.  On a canceled training with a pending proposal (proposed by
the attendee) and a far-future time, `ApproveReschedule(Trainer)`
succeeds, `RescheduleTraining` succeeds, and `ProposeReschedule` records
a fresh proposal — none of the mutators of `reschedule.go` consults the
`canceled` flag, refuting "no other mutator succeeds on it either". -/
theorem canceled_training_not_terminal_counterexample :
    Training.approveReschedule .trainer
        { uuid := "t1", userUUID := "u1", userName := "alice", time := 1000, notes := "n",
          canceled := true, proposedNewTime := some 500, moveProposedBy := some .attendee } =
      .ok { uuid := "t1", userUUID := "u1", userName := "alice", time := 500, notes := "n",
            canceled := true, proposedNewTime := none, moveProposedBy := none }
  ∧ Training.rescheduleTraining 0 2000
        { uuid := "t1", userUUID := "u1", userName := "alice", time := 1000, notes := "n",
          canceled := true, proposedNewTime := some 500, moveProposedBy := some .attendee } =
      .ok { uuid := "t1", userUUID := "u1", userName := "alice", time := 2000, notes := "n",
            canceled := true, proposedNewTime := some 500, moveProposedBy := some .attendee }
  ∧ Training.proposeReschedule 300 .trainer
        { uuid := "t1", userUUID := "u1", userName := "alice", time := 1000, notes := "n",
          canceled := true, proposedNewTime := some 500, moveProposedBy := some .attendee } =
      { uuid := "t1", userUUID := "u1", userName := "alice", time := 1000, notes := "n",
        canceled := true, proposedNewTime := some 300, moveProposedBy := some .trainer } :=
  ⟨rfl, rfl, rfl⟩

/-- Claim C7, amended: once `canceled = true`, a second `Cancel()` fails,
but cancellation is not otherwise terminal — `ProposeReschedule`,
`RescheduleTraining` (within the free-cancellation window),
`ApproveReschedule` (pending proposal, other role) and `RejectReschedule`
(pending proposal) do not consult the `canceled` flag and still succeed
on a canceled training. -/
theorem canceled_second_cancel_fails_mutators_unchecked (t : Training)
    (h : t.canceled = true) :
    Training.cancel t = .error .alreadyCanceled
  ∧ (∀ newTime proposer,
      Training.proposeReschedule newTime proposer t =
        { t with proposedNewTime := some newTime, moveProposedBy := some proposer })
  ∧ (∀ now newTime, canBeCanceledForFree now t = true →
      Training.rescheduleTraining now newTime t = .ok { t with time := newTime })
  ∧ (∀ pnt proposer u, t.proposedNewTime = some pnt → t.moveProposedBy = some proposer →
      proposer ≠ u →
      Training.approveReschedule u t =
        .ok { t with time := pnt, proposedNewTime := none, moveProposedBy := none })
  ∧ (∀ pnt proposer, t.proposedNewTime = some pnt → t.moveProposedBy = some proposer →
      Training.rejectReschedule t =
        .ok { t with proposedNewTime := none, moveProposedBy := none }) := by
  refine ⟨?_, ?_, ?_, ?_, ?_⟩
  · simp [Training.cancel, h]
  · intro newTime proposer
    rfl
  · intro now newTime hfree
    simp [Training.rescheduleTraining, hfree]
  · intro pnt proposer u hp hm hne
    simp [Training.approveReschedule, hp, hm, hne]
  · intro pnt proposer hp hm
    simp [Training.rejectReschedule, hp, hm]

/-- Witness for `canceled_second_cancel_fails_mutators_unchecked` on a
concrete canceled training with a pending attendee proposal: the second
cancel fails while a direct reschedule within the window and the
rejection of the pending proposal both succeed. -/
theorem canceled_second_cancel_fails_mutators_unchecked_witness :
    Training.cancel
        { uuid := "t1", userUUID := "u1", userName := "alice", time := 1000, notes := "n",
          canceled := true, proposedNewTime := some 500, moveProposedBy := some .attendee } =
      .error .alreadyCanceled
  ∧ Training.rescheduleTraining 0 2000
        { uuid := "t1", userUUID := "u1", userName := "alice", time := 1000, notes := "n",
          canceled := true, proposedNewTime := some 500, moveProposedBy := some .attendee } =
      .ok { uuid := "t1", userUUID := "u1", userName := "alice", time := 2000, notes := "n",
            canceled := true, proposedNewTime := some 500, moveProposedBy := some .attendee }
  ∧ Training.rejectReschedule
        { uuid := "t1", userUUID := "u1", userName := "alice", time := 1000, notes := "n",
          canceled := true, proposedNewTime := some 500, moveProposedBy := some .attendee } =
      .ok { uuid := "t1", userUUID := "u1", userName := "alice", time := 1000, notes := "n",
            canceled := true, proposedNewTime := none, moveProposedBy := none } :=
  ⟨(canceled_second_cancel_fails_mutators_unchecked _ rfl).1,
   (canceled_second_cancel_fails_mutators_unchecked _ rfl).2.2.1 0 2000 (by decide),
   (canceled_second_cancel_fails_mutators_unchecked _ rfl).2.2.2.2 500 .attendee rfl rfl⟩

/-- Claim C1: with one Available hour row at time 12, two concurrent
`ScheduleTraining` transactions interleaved as read–read–commit–commit
BOTH succeed — the claimed "exactly 1 succeeds, N−1 fail with
DomainConflict" fails, because `GetHourByTime` as shipped in the SQLC
query file takes no exclusive row lock (`forUpdate = false`), so the
second transaction's read is not blocked and observes the same
pre-transition state as the first; the repository's README documents the
same query WITH a `FOR UPDATE` clause, which the shipped SQL contradicts. -/
theorem concurrent_scheduleTraining_double_success :
    concurrentDoubleUpdateHour
        [{ id := 1, hourTime := 12, availability := "available" }] 12
        scheduleTrainingHandlerFn scheduleTrainingHandlerFn =
      some (.ok (), .ok (),
        [{ id := 1, hourTime := 12, availability := "training_scheduled" }])
  ∧ getHourByTimeQuery.forUpdate = false
  ∧ documentedGetHourByTimeQuery.forUpdate = true :=
  ⟨rfl, rfl, rfl⟩

/-- Claim C5: the clearing of the proposal pair is NOT persisted.  On a
stored training with a pending proposal (proposed_new_time = 200,
move_proposed_by = "attendee"), `ApproveReschedule(Trainer)` run through
the guarded `UpdateTraining` succeeds, and the domain value it returns
has `time = 200` and both proposal fields cleared — but the stored row is
bit-for-bit unchanged: the SQL `UPDATE` sets every nullable column with
`COALESCE(param, old)` and the adapter passes NULL for cleared fields,
so the NULLs keep the old values, and `training_time` is not in the SET
list at all. -/
theorem approveReschedule_clearing_not_persisted :
    UpdateTraining
        [{ id := "t1", userId := "u1", userName := "alice", trainingTime := 100,
           notes := some "note", proposedNewTime := some 200,
           moveProposedBy := some "attendee", canceled := false }]
        "t1" { uuid := "coach", role := .trainer }
        (Training.approveReschedule .trainer) =
      .ok [{ id := "t1", userId := "u1", userName := "alice", trainingTime := 100,
             notes := some "note", proposedNewTime := some 200,
             moveProposedBy := some "attendee", canceled := false }]
  ∧ unmarshalTraining
        { id := "t1", userId := "u1", userName := "alice", trainingTime := 100,
          notes := some "note", proposedNewTime := some 200,
          moveProposedBy := some "attendee", canceled := false } =
      .ok { uuid := "t1", userUUID := "u1", userName := "alice", time := 100,
            notes := "note", canceled := false, proposedNewTime := some 200,
            moveProposedBy := some .attendee }
  ∧ Training.approveReschedule .trainer
        { uuid := "t1", userUUID := "u1", userName := "alice", time := 100,
          notes := "note", canceled := false, proposedNewTime := some 200,
          moveProposedBy := some .attendee } =
      .ok { uuid := "t1", userUUID := "u1", userName := "alice", time := 200,
            notes := "note", canceled := false, proposedNewTime := none,
            moveProposedBy := none } :=
  ⟨rfl, rfl, rfl⟩

/-- Claim C8: the stored row does not equal the transition result when the
transition clears fields.  On a stored training with a pending proposal,
`RejectReschedule` run through the guarded `UpdateTraining` succeeds and
returns a training with both proposal fields cleared, yet the persisted
row is exactly the original row (the COALESCE-based UPDATE ignores the
NULL parameters standing for the cleared fields): the whole command is a
persistent no-op. -/
theorem rejectReschedule_persisted_noop :
    UpdateTraining
        [{ id := "t2", userId := "u2", userName := "bob", trainingTime := 100,
           notes := some "n", proposedNewTime := some 300,
           moveProposedBy := some "trainer", canceled := false }]
        "t2" { uuid := "u2", role := .attendee }
        Training.rejectReschedule =
      .ok [{ id := "t2", userId := "u2", userName := "bob", trainingTime := 100,
             notes := some "n", proposedNewTime := some 300,
             moveProposedBy := some "trainer", canceled := false }]
  ∧ Training.rejectReschedule
        { uuid := "t2", userUUID := "u2", userName := "bob", time := 100,
          notes := "n", canceled := false, proposedNewTime := some 300,
          moveProposedBy := some .trainer } =
      .ok { uuid := "t2", userUUID := "u2", userName := "bob", time := 100,
            notes := "n", canceled := false, proposedNewTime := none,
            moveProposedBy := none }
  ∧ unmarshalTraining
        { id := "t2", userId := "u2", userName := "bob", trainingTime := 100,
          notes := some "n", proposedNewTime := some 300,
          moveProposedBy := some "trainer", canceled := false } =
      .ok { uuid := "t2", userUUID := "u2", userName := "bob", time := 100,
            notes := "n", canceled := false, proposedNewTime := some 300,
            moveProposedBy := some .trainer } :=
  ⟨rfl, rfl, rfl⟩

/-- Claim C2: whenever the transition function returns an error on the hour
the transaction read (or lazily created), `UpdateHour` returns that error
and rolls the transaction back: the availability write is never emitted,
the commit flag stays false, and the final persistent state equals the
initial one — even though the transaction may already have performed the
insert of a synthesized row (`ops`), the rollback discards it. -/
theorem updateHour_aborts_on_updateFn_error (cfg : FactoryConfig) (now : Int)
    (freshId : Nat) (db : HoursDB) (t : Int) (f : Hour → Except Err Hour)
    (row : HourRow) (ops : List HourTxOp) (av : Availability) (e : Err)
    (hread : hourTxRead cfg now freshId db t = .ok (row, ops))
    (hav : availabilityFromString row.availability = .ok av)
    (hf : f (UnmarshalHourFromDatabase row.hourTime av) = .error e) :
    UpdateHour cfg now freshId db t f =
      { result := .error e, ops := ops, committed := false }
  ∧ hourTxFinalDB db (UpdateHour cfg now freshId db t f) = db := by
  have h1 : UpdateHour cfg now freshId db t f =
      { result := .error e, ops := ops, committed := false } := by
    simp [UpdateHour, hourTxAfterRead, hread, hav, hf]
  exact ⟨h1, by rw [h1]; rfl⟩

/-- Witness for `updateHour_aborts_on_updateFn_error`: on an empty table,
`UpdateHour` at hour 12 with the `ScheduleTraining` handler function
synthesizes and inserts a NotAvailable row inside the transaction, the
transition then fails with a DomainConflict (NotAvailable is not
Available), and the rollback leaves the table empty — the synthesized row
is discarded. -/
theorem updateHour_aborts_on_updateFn_error_witness :
    UpdateHour appFactoryConfig 0 7 [] 12 scheduleTrainingHandlerFn =
      { result := .error .domainConflict,
        ops := [.insertRow { id := 7, hourTime := 12, availability := "not_available" }],
        committed := false }
  ∧ hourTxFinalDB [] (UpdateHour appFactoryConfig 0 7 [] 12 scheduleTrainingHandlerFn) = [] :=
  updateHour_aborts_on_updateFn_error appFactoryConfig 0 7 [] 12
    scheduleTrainingHandlerFn
    { id := 7, hourTime := 12, availability := "not_available" }
    [.insertRow { id := 7, hourTime := 12, availability := "not_available" }]
    .notAvailable .domainConflict rfl rfl rfl

/-- Claim C10: when no row exists at `t` and `t` fails the factory's
creation validation under the application's configuration (t in the
past, hour-of-day outside the 12–20 UTC band, or more than 6 weeks in
the future), `UpdateHour` fails with a ValidationError before performing
any write and without ever invoking the transition function: the outcome
is literally independent of it. -/
theorem updateHour_lazy_creation_enforces_validation (now : Int) (freshId : Nat)
    (db : HoursDB) (t : Int) (f : Hour → Except Err Hour)
    (hmiss : getHourByTime db t = none)
    (hbad : t < now ∨ t % 24 < 12 ∨ 20 < t % 24 ∨ now + 1008 < t) :
    UpdateHour appFactoryConfig now freshId db t f =
      { result := .error .validation, ops := [], committed := false }
  ∧ hourTxFinalDB db (UpdateHour appFactoryConfig now freshId db t f) = db
  ∧ ∀ g, UpdateHour appFactoryConfig now freshId db t g =
      UpdateHour appFactoryConfig now freshId db t f := by
  have hv : validateHourTime appFactoryConfig now t = .error .validation := by
    unfold validateHourTime appFactoryConfig
    split_ifs with h1 h2 h3 h4 <;> try rfl
    simp only at h1 h2 h3 h4
    omega
  have key : ∀ g, UpdateHour appFactoryConfig now freshId db t g =
      { result := .error .validation, ops := [], committed := false } := by
    intro g
    simp [UpdateHour, hourTxRead, hmiss, NewNotAvailableHour, hv]
  exact ⟨key f, by rw [key f]; rfl, fun g => (key g).trans (key f).symm⟩

/-- Witness for `updateHour_lazy_creation_enforces_validation`: hour 12 is
in the past relative to now = 100, so `UpdateHour` on an empty table
fails with a ValidationError, and the outcome with a different update
function is the same one. -/
theorem updateHour_lazy_creation_enforces_validation_witness :
    UpdateHour appFactoryConfig 100 7 [] 12 scheduleTrainingHandlerFn =
      { result := .error .validation, ops := [], committed := false }
  ∧ UpdateHour appFactoryConfig 100 7 [] 12 Hour.makeAvailable =
      UpdateHour appFactoryConfig 100 7 [] 12 scheduleTrainingHandlerFn :=
  ⟨(updateHour_lazy_creation_enforces_validation 100 7 [] 12
      scheduleTrainingHandlerFn rfl (Or.inl (by decide))).1,
   (updateHour_lazy_creation_enforces_validation 100 7 [] 12
      scheduleTrainingHandlerFn rfl (Or.inl (by decide))).2.2 Hour.makeAvailable⟩

/-- Claim C9, amended: the reschedule command runs inside the Training
repository's guarded update, but it applies the notes update and the
domain `RescheduleTraining` transition FIRST and calls the
trainer-service `MoveTraining` boundary only afterwards (on any
successful run the recorded step order is notes, domain transition,
external move); and whenever the external move fails, the update function
returns that error — having been invoked strictly after the domain
transition — and the guarded `UpdateTraining` returns the error, i.e. the
transaction aborts and no training change is persisted. -/
theorem rescheduleHandler_transition_then_move_abort (now newTime : Int)
    (newNotes : String) (move : Int → Int → Except Err Unit)
    (db : List TrainingRow) (trainingUUID : String) (user : User)
    (row : TrainingRow) (tr : Training) (e : Err)
    (hfind : db.find? (fun r => r.id == trainingUUID) = some row)
    (hunm : unmarshalTraining row = .ok tr)
    (hauth : CanUserSeeTraining user tr = .ok ())
    (hnotes : newNotes.length ≤ 1000)
    (hfree : canBeCanceledForFree now tr = true)
    (hmove : move newTime tr.time = .error e) :
    (∀ mv (tr2 : Training) (trace : List RescheduleStep),
      rescheduleHandlerUpdateFn now newTime newNotes mv tr = (.ok tr2, trace) →
      trace = [.notesUpdated, .domainRescheduled, .trainerServiceMoved])
  ∧ (rescheduleHandlerUpdateFn now newTime newNotes move tr).1 = .error e
  ∧ (rescheduleHandlerUpdateFn now newTime newNotes move tr).2 =
      [.notesUpdated, .domainRescheduled]
  ∧ UpdateTraining db trainingUUID user
      (fun t => (rescheduleHandlerUpdateFn now newTime newNotes move t).1) =
      .error e := by
  have hnotes' : Training.updateNotes newNotes tr = .ok { tr with notes := newNotes } := by
    simp [Training.updateNotes, Nat.not_lt.mpr hnotes]
  have hfree' : canBeCanceledForFree now { tr with notes := newNotes } = true := by
    simpa [canBeCanceledForFree] using hfree
  have hres : Training.rescheduleTraining now newTime { tr with notes := newNotes } =
      .ok { tr with notes := newNotes, time := newTime } := by
    simp [Training.rescheduleTraining, hfree']
  have hrun : rescheduleHandlerUpdateFn now newTime newNotes move tr =
      (.error e, [.notesUpdated, .domainRescheduled]) := by
    simp [rescheduleHandlerUpdateFn, hnotes', hres, hmove]
  refine ⟨?_, ?_, ?_, ?_⟩
  · intro mv tr2 trace h
    simp only [rescheduleHandlerUpdateFn] at h
    split at h
    · exact absurd h (by simp)
    · split at h
      · exact absurd h (by simp)
      · split at h
        · exact absurd h (by simp)
        · exact ((Prod.mk.injEq _ _ _ _).mp h).2.symm
  · rw [hrun]
  · rw [hrun]
  · have hfn : (fun t => (rescheduleHandlerUpdateFn now newTime newNotes move t).1) tr =
        .error e := by
      show (rescheduleHandlerUpdateFn now newTime newNotes move tr).1 = .error e
      rw [hrun]
    simp [UpdateTraining, hfind, hunm, hauth, hfn]

/-- Witness for `rescheduleHandler_transition_then_move_abort`: a concrete
training (booked by u9, 100 hours ahead) whose external move fails with
an infrastructure error — the update function errors after the domain
transition, and the guarded update returns the error, persisting
nothing. -/
theorem rescheduleHandler_transition_then_move_abort_witness :
    (rescheduleHandlerUpdateFn 0 200 "hi" (fun _ _ => .error .infra)
        { uuid := "t9", userUUID := "u9", userName := "carol", time := 100,
          notes := "", canceled := false, proposedNewTime := none,
          moveProposedBy := none }).1 = .error .infra
  ∧ UpdateTraining
        [{ id := "t9", userId := "u9", userName := "carol", trainingTime := 100,
           notes := none, proposedNewTime := none, moveProposedBy := none,
           canceled := false }]
        "t9" { uuid := "u9", role := .attendee }
        (fun t => (rescheduleHandlerUpdateFn 0 200 "hi"
          (fun _ _ => .error .infra) t).1) =
      .error .infra :=
  ⟨(rescheduleHandler_transition_then_move_abort 0 200 "hi"
      (fun _ _ => .error .infra)
      [{ id := "t9", userId := "u9", userName := "carol", trainingTime := 100,
         notes := none, proposedNewTime := none, moveProposedBy := none,
         canceled := false }]
      "t9" { uuid := "u9", role := .attendee }
      { id := "t9", userId := "u9", userName := "carol", trainingTime := 100,
        notes := none, proposedNewTime := none, moveProposedBy := none,
        canceled := false }
      { uuid := "t9", userUUID := "u9", userName := "carol", time := 100,
        notes := "", canceled := false, proposedNewTime := none,
        moveProposedBy := none }
      .infra rfl rfl rfl (by decide) (by decide) rfl).2.1,
   (rescheduleHandler_transition_then_move_abort 0 200 "hi"
      (fun _ _ => .error .infra)
      [{ id := "t9", userId := "u9", userName := "carol", trainingTime := 100,
         notes := none, proposedNewTime := none, moveProposedBy := none,
         canceled := false }]
      "t9" { uuid := "u9", role := .attendee }
      { id := "t9", userId := "u9", userName := "carol", trainingTime := 100,
        notes := none, proposedNewTime := none, moveProposedBy := none,
        canceled := false }
      { uuid := "t9", userUUID := "u9", userName := "carol", time := 100,
        notes := "", canceled := false, proposedNewTime := none,
        moveProposedBy := none }
      .infra rfl rfl rfl (by decide) (by decide) rfl).2.2.2⟩

/-- Claim C9, counterexample to the claimed order: on a successful run the
recorded step sequence is notes update, then the domain
`RescheduleTraining` transition, and the trainer-service move LAST —
the handler does not call the trainer-service boundary before applying
the domain transition, contrary to the claim's "in that order". -/
theorem rescheduleHandler_calls_move_after_transition :
    rescheduleHandlerUpdateFn 0 200 "hi" (fun _ _ => .ok ())
        { uuid := "t9", userUUID := "u9", userName := "carol", time := 100,
          notes := "", canceled := false, proposedNewTime := none,
          moveProposedBy := none } =
      (.ok { uuid := "t9", userUUID := "u9", userName := "carol", time := 200,
             notes := "hi", canceled := false, proposedNewTime := none,
             moveProposedBy := none },
       [.notesUpdated, .domainRescheduled, .trainerServiceMoved]) := rfl

/-- A missing row at `t` means no row of the table has hour_time `t`. -/
theorem hours_countP_zero_of_miss (db : HoursDB) (t : Int)
    (h : getHourByTime db t = none) :
    db.countP (fun r => r.hourTime == t) = 0 := by
  unfold getHourByTime at h
  rw [List.countP_eq_zero]
  intro r hr
  exact List.find?_eq_none.mp h r hr

/-- A missing row at `t` makes the uniqueness check of the insert pass. -/
theorem hours_any_false_of_miss (db : HoursDB) (t : Int)
    (h : getHourByTime db t = none) :
    db.any (fun r => r.hourTime == t) = false := by
  unfold getHourByTime at h
  rw [List.any_eq_false]
  intro r hr
  exact List.find?_eq_none.mp h r hr

/-- The availability write touches no hour_time, so it does not change how
many rows sit at any timestamp. -/
theorem hours_countP_time_update (db : HoursDB) (i : Nat) (av : String) (t : Int) :
    (applyHourTxOp db (.updateAvailability i av)).countP (fun r => r.hourTime == t)
      = db.countP (fun r => r.hourTime == t) := by
  show (db.map _).countP _ = _
  rw [List.countP_map]
  exact List.countP_congr (fun r hr => by
    by_cases h : r.id == i <;> simp [h, Function.comp])

/-- After inserting a row at the previously-missing timestamp `t` and then
rewriting that row's availability, the lookup at `t` finds exactly that
row with the new availability. -/
theorem getHourByTime_insert_update (db : HoursDB) (t : Int) (row : HourRow)
    (av : String) (hmiss : getHourByTime db t = none) (hrow : row.hourTime = t) :
    getHourByTime (applyHourTxOp (db ++ [row]) (.updateAvailability row.id av)) t =
      some { row with availability := av } := by
  unfold getHourByTime at hmiss
  show ((db ++ [row]).map _).find? _ = _
  rw [List.map_append, List.find?_append]
  have h1 : (db.map (fun r =>
      if r.id == row.id then { r with availability := av } else r)).find?
      (fun r => r.hourTime == t) = none := by
    rw [List.find?_eq_none]
    intro x hx
    obtain ⟨r, hr, rfl⟩ := List.mem_map.mp hx
    have hne := List.find?_eq_none.mp hmiss r hr
    by_cases h : r.id == row.id <;> simp_all
  rw [h1]
  simp [hrow]

/-- The constructed hour of a successful `NewNotAvailableHour` is the
NotAvailable hour at `t`. -/
theorem NewNotAvailableHour_ok (cfg : FactoryConfig) (now t : Int) (h' : Hour)
    (h : NewNotAvailableHour cfg now t = .ok h') :
    h' = { hourTime := t, availability := .notAvailable } := by
  unfold NewNotAvailableHour at h
  split at h
  · exact absurd h (by simp)
  · exact ((Except.ok.injEq _ _).mp h).symm

/-- A successful read phase either found the row (performing no write) or
lazily inserted the freshly synthesized NotAvailable row. -/
theorem hourTxRead_cases (cfg : FactoryConfig) (now : Int) (freshId : Nat)
    (db : HoursDB) (t : Int) (row : HourRow) (ops : List HourTxOp)
    (h : hourTxRead cfg now freshId db t = .ok (row, ops)) :
    (getHourByTime db t = some row ∧ ops = []) ∨
    (getHourByTime db t = none
      ∧ row = { id := freshId, hourTime := t, availability := "not_available" }
      ∧ ops = [.insertRow row]) := by
  unfold hourTxRead at h
  split at h
  · rename_i r hg
    simp only [Except.ok.injEq, Prod.mk.injEq] at h
    exact Or.inl ⟨h.1 ▸ hg, h.2.symm⟩
  · rename_i hg
    split at h
    · exact absurd h (by simp)
    · rename_i newHour hn
      have hnew := NewNotAvailableHour_ok cfg now t newHour hn
      subst hnew
      rw [hours_any_false_of_miss db t hg] at h
      simp only [Bool.false_eq_true, if_false, Except.ok.injEq, Prod.mk.injEq] at h
      refine Or.inr ⟨hg, h.1.symm, ?_⟩
      rw [← h.1, ← h.2]

/-- A successful post-read phase always produces the availability write for
the row the transaction read. -/
theorem hourTxAfterRead_ok_shape (row : HourRow) (f : Hour → Except Err Hour)
    (op : HourTxOp) (h : hourTxAfterRead row f = .ok op) :
    ∃ s, op = .updateAvailability row.id s := by
  unfold hourTxAfterRead at h
  split at h
  · exact absurd h (by simp)
  · split at h
    · exact absurd h (by simp)
    · exact ⟨_, ((Except.ok.injEq _ _).mp h).symm⟩

/-- One `UpdateHour` call never brings the number of rows at its timestamp
above 1 (and never above the prior count): the only insert it can perform
happens when no row was present. -/
theorem updateHour_countP_le (cfg : FactoryConfig) (now : Int) (freshId : Nat)
    (db : HoursDB) (t : Int) (f : Hour → Except Err Hour) :
    (hourTxFinalDB db (UpdateHour cfg now freshId db t f)).countP
        (fun r => r.hourTime == t)
      ≤ max 1 (db.countP (fun r => r.hourTime == t)) := by
  cases hr : hourTxRead cfg now freshId db t with
  | error e =>
    have hU : UpdateHour cfg now freshId db t f =
        { result := .error e, ops := [], committed := false } := by
      simp [UpdateHour, hr]
    rw [hU]
    exact le_max_right _ _
  | ok pr =>
    obtain ⟨row, ops⟩ := pr
    cases ha : hourTxAfterRead row f with
    | error e =>
      have hU : UpdateHour cfg now freshId db t f =
          { result := .error e, ops := ops, committed := false } := by
        simp [UpdateHour, hr, ha]
      rw [hU]
      exact le_max_right _ _
    | ok op =>
      obtain ⟨s, rfl⟩ := hourTxAfterRead_ok_shape row f op ha
      have hU : UpdateHour cfg now freshId db t f =
          { result := .ok (), ops := ops ++ [.updateAvailability row.id s],
            committed := true } := by
        simp [UpdateHour, hr, ha]
      rw [hU]
      rcases hourTxRead_cases cfg now freshId db t row ops hr with ⟨hg, hops⟩ | ⟨hg, hrow, hops⟩
      · subst hops
        show (commitHourOps db _).countP _ ≤ _
        simp only [commitHourOps, List.nil_append, List.foldl_cons, List.foldl_nil]
        rw [hours_countP_time_update]
        exact le_max_right _ _
      · subst hops
        show (commitHourOps db _).countP _ ≤ _
        simp only [commitHourOps, List.cons_append, List.nil_append,
          List.foldl_cons, List.foldl_nil]
        show ((applyHourTxOp (db ++ [row]) _).countP _ : ℕ) ≤ _
        rw [hours_countP_time_update, List.countP_append,
          hours_countP_zero_of_miss db t hg]
        subst hrow
        simp

/-- Claim C3: starting from a table with no row at `t`, two sequential
`UpdateHour` calls never leave two rows at `t`; when the first call
succeeds it has inserted the single synthesized row defaulting to
NotAvailable (under the fresh id `id1`), and the second call's read phase
finds exactly that row — the one created by the first call, with whatever
availability the first call committed — and performs no further insert. -/
theorem updateHour_sequential_upsert_single_row (cfg : FactoryConfig) (now : Int)
    (id1 id2 : Nat) (db : HoursDB) (t : Int) (f g : Hour → Except Err Hour)
    (hmiss : getHourByTime db t = none) :
    (hourTxFinalDB (hourTxFinalDB db (UpdateHour cfg now id1 db t f))
        (UpdateHour cfg now id2 (hourTxFinalDB db (UpdateHour cfg now id1 db t f)) t g)).countP
        (fun r => r.hourTime == t) ≤ 1
  ∧ ((UpdateHour cfg now id1 db t f).result = .ok () →
      HourTxOp.insertRow { id := id1, hourTime := t, availability := "not_available" }
          ∈ (UpdateHour cfg now id1 db t f).ops
      ∧ ∃ s, hourTxRead cfg now id2 (hourTxFinalDB db (UpdateHour cfg now id1 db t f)) t =
          .ok ({ id := id1, hourTime := t, availability := s }, [])) := by
  constructor
  · have h1 := updateHour_countP_le cfg now id1 db t f
    rw [hours_countP_zero_of_miss db t hmiss] at h1
    have h1' : (hourTxFinalDB db (UpdateHour cfg now id1 db t f)).countP
        (fun r => r.hourTime == t) ≤ 1 := by simpa using h1
    have h2 := updateHour_countP_le cfg now id2
      (hourTxFinalDB db (UpdateHour cfg now id1 db t f)) t g
    rw [max_eq_left h1'] at h2
    exact h2
  · intro hok
    cases hr : hourTxRead cfg now id1 db t with
    | error e => simp [UpdateHour, hr] at hok
    | ok pr =>
      obtain ⟨row, ops⟩ := pr
      cases ha : hourTxAfterRead row f with
      | error e => simp [UpdateHour, hr, ha] at hok
      | ok op =>
        obtain ⟨s, rfl⟩ := hourTxAfterRead_ok_shape row f op ha
        have hU : UpdateHour cfg now id1 db t f =
            { result := .ok (), ops := ops ++ [.updateAvailability row.id s],
              committed := true } := by
          simp [UpdateHour, hr, ha]
        rcases hourTxRead_cases cfg now id1 db t row ops hr with ⟨hg, _⟩ | ⟨hg, hrow, hops⟩
        · rw [hmiss] at hg
          exact absurd hg (by simp)
        · subst hops
          constructor
          · rw [hU]
            rw [← hrow]
            simp
          · have hdb1 : hourTxFinalDB db (UpdateHour cfg now id1 db t f) =
                applyHourTxOp (db ++ [row]) (.updateAvailability row.id s) := by
              rw [hU]
              show commitHourOps db _ = _
              simp only [commitHourOps, List.cons_append, List.nil_append,
                List.foldl_cons, List.foldl_nil]
              rfl
            refine ⟨s, ?_⟩
            rw [hdb1]
            have hfind := getHourByTime_insert_update db t row s hmiss (by rw [hrow])
            unfold hourTxRead
            rw [hfind]
            rw [hrow]

/-- Witness for `updateHour_sequential_upsert_single_row`: on an empty
table, a first `UpdateHour` at hour 12 (MakeAvailable) inserts the
synthesized NotAvailable row and commits it as available, and a second
call (the ScheduleTraining handler) reads that same row; at no point are
there two rows at hour 12. -/
theorem updateHour_sequential_upsert_single_row_witness :
    (hourTxFinalDB (hourTxFinalDB [] (UpdateHour appFactoryConfig 0 3 [] 12 Hour.makeAvailable))
        (UpdateHour appFactoryConfig 0 4
          (hourTxFinalDB [] (UpdateHour appFactoryConfig 0 3 [] 12 Hour.makeAvailable))
          12 scheduleTrainingHandlerFn)).countP
        (fun r => r.hourTime == 12) ≤ 1
  ∧ (HourTxOp.insertRow { id := 3, hourTime := 12, availability := "not_available" }
        ∈ (UpdateHour appFactoryConfig 0 3 [] 12 Hour.makeAvailable).ops
      ∧ ∃ s, hourTxRead appFactoryConfig 0 4
          (hourTxFinalDB [] (UpdateHour appFactoryConfig 0 3 [] 12 Hour.makeAvailable)) 12 =
          .ok ({ id := 3, hourTime := 12, availability := s }, [])) :=
  ⟨(updateHour_sequential_upsert_single_row appFactoryConfig 0 3 4 [] 12
      Hour.makeAvailable scheduleTrainingHandlerFn rfl).1,
   (updateHour_sequential_upsert_single_row appFactoryConfig 0 3 4 [] 12
      Hour.makeAvailable scheduleTrainingHandlerFn rfl).2 rfl⟩
